import Mathlib

/-!
Shallow embedding of `phrase.py` (denspi phrase model core).

Tensors are embedded as nested lists over `ℚ` (exact rational stand-in for
float arithmetic): a `[B, L, D]` tensor is a `List (List (List ℚ))`, a
`[B, L]` tensor a `List (List ℚ)`, position tensors `int[B]` are `List ℤ`.
External torch primitives that the repository merely calls
(`nn.CrossEntropyLoss.forward`, `binary_cross_entropy_with_logits`, the
BERT encoder) are opaque function parameters carried in the model record.
Python exceptions (`ValueError`, `AssertionError`, `NameError`) are
embedded as `Except String`.  In-place mutation of the caller's position
tensors (`clamp_`) is embedded by explicit state passing: the functions
return the final contents of those tensors alongside their results.
-/

/-- Inner product over the feature axis: `(a * b).sum(-1)` for same-shape
vectors. -/
def ip (a b : List ℚ) : ℚ :=
  (List.zipWith (fun x y => x * y) a b).sum

/-- `get_logits` from `phrase.py` at the level of a single vector pair.
The `'l2'` branch is the source's recursion with `'ip'` unfolded.
An unknown metric raises `ValueError(metric)`. -/
def get_logits (a b : List ℚ) (metric : String) : Except String ℚ :=
  if metric = "ip" then Except.ok (ip a b)
  else if metric = "l2" then
    Except.ok (ip a b - (1/2) * (ip a a + ip b b))
  else Except.error metric

/-- `get_logits` applied to a `[B, L]`-shaped family of vector pairs
(the broadcast of a `[B, L, w]` tensor against a `[B, 1, w]` tensor):
the metric-name dispatch happens once, the scoring elementwise. -/
def get_logits2 (metric : String) (pairs : List (List (List ℚ × List ℚ))) :
    Except String (List (List ℚ)) :=
  if metric = "ip" then
    Except.ok (pairs.map (fun r => r.map (fun ab => ip ab.1 ab.2)))
  else if metric = "l2" then
    Except.ok (pairs.map (fun r => r.map (fun ab =>
      ip ab.1 ab.2 - (1/2) * (ip ab.1 ab.1 + ip ab.2 ab.2))))
  else Except.error metric

/-- `get_logits` applied to a `[B, L, L]`-shaped family of scalar pairs
(the broadcast of `span_logits.unsqueeze(-1)` against
`q_span_logits.unsqueeze(-1)`, so each operand is a singleton vector). -/
def get_logits3 (metric : String) (pairs : List (List (List (ℚ × ℚ)))) :
    Except String (List (List (List ℚ))) :=
  if metric = "ip" then
    Except.ok (pairs.map (fun m => m.map (fun r => r.map (fun ab =>
      ip [ab.1] [ab.2]))))
  else if metric = "l2" then
    Except.ok (pairs.map (fun m => m.map (fun r => r.map (fun ab =>
      ip [ab.1] [ab.2] - (1/2) * (ip [ab.1] [ab.1] + ip [ab.2] [ab.2])))))
  else Except.error metric

/-- Pair each position vector of `x : [B, L, w]` with the first position
vector of `q : [B, 1, w]` of the same batch element (broadcasting). -/
def bpairs (x q : List (List (List ℚ))) : List (List (List ℚ × List ℚ)) :=
  List.zipWith (fun xb qb => xb.map (fun v => (v, qb.headD []))) x q

/-- Pair each scalar of `x : [B, L, L]` with the `[0][0]` scalar of
`q : [B, 1, 1]` of the same batch element (broadcasting). -/
def bpairs3 (x q : List (List (List ℚ))) : List (List (List (ℚ × ℚ))) :=
  List.zipWith (fun xb qb => xb.map (fun row => row.map (fun c =>
    (c, (qb.headD []).headD 0)))) x q

/-- `torch.chunk(2, dim)` on one feature vector: two chunks of size
`ceil(w/2)` (then the remainder). -/
def chunk2 (v : List ℚ) : List ℚ × List ℚ :=
  (v.take ((v.length + 1) / 2), v.drop ((v.length + 1) / 2))

/-- `encode_phrase` from `phrase.py`.  Slices each position's hidden
vector into the boundary region (first `phrase_size - 1` features, halved
into `start`/`end`) and the span region (the rest, halved into
`span_start`/`span_end`); `span_logits[b,i,j] = span_start[b,i]·span_end[b,j]`.
With `get_first_only`, `start`/`end` keep only the first sequence position
and `span_logits` only its `[0,0]` entry. -/
def encode_phrase (layer : List (List (List ℚ))) (phrase_size : ℕ)
    (get_first_only : Bool := false) :
    List (List (List ℚ)) × List (List (List ℚ)) × List (List (List ℚ)) :=
  let start := layer.map (fun rows => rows.map (fun v =>
    (chunk2 (v.take (phrase_size - 1))).1))
  let endv := layer.map (fun rows => rows.map (fun v =>
    (chunk2 (v.take (phrase_size - 1))).2))
  let span_start := layer.map (fun rows => rows.map (fun v =>
    (chunk2 (v.drop (phrase_size - 1))).1))
  let span_end := layer.map (fun rows => rows.map (fun v =>
    (chunk2 (v.drop (phrase_size - 1))).2))
  let span_logits := List.zipWith (fun ss se =>
    ss.map (fun si => se.map (fun sj => ip si sj))) span_start span_end
  if get_first_only then
    (start.map (fun rows => rows.take 1),
     endv.map (fun rows => rows.take 1),
     span_logits.map (fun m => (m.take 1).map (fun r => r.take 1)))
  else
    (start, endv, span_logits)

/-- `size(1)` of a `[B, L]` tensor embedded as a (uniform) nested list. -/
def dim1 {α : Type} (m : List (List α)) : ℕ := (m.headD []).length

/-- `x.clamp_(-1, idx)` on a single entry (the new value the in-place op
stores). -/
def clamp1 (idx : ℕ) (x : ℤ) : ℤ := max (-1) (min x (idx : ℤ))

/-- Contents of a position tensor after `positions.clamp_(-1, idx)`. -/
def clamped_positions (pos : List ℤ) (idx : ℕ) : List ℤ :=
  pos.map (clamp1 idx)

/-- Lines 105-109 of `phrase.py` applied to already-clamped positions:
`span_target = start * ignored_index + end`, clamped to
`[-1, ignored_index^2]`, then overridden with `ignored_index^2` where
`valid = (start < ignored_index) & (end < ignored_index)` is false. -/
def span_targets (sp ep : List ℤ) (ignored_index : ℕ) : List ℤ :=
  List.zipWith (fun s e =>
    let t := s * (ignored_index : ℤ) + e
    let t := max (-1) (min t ((ignored_index : ℤ) ^ 2))
    if s < (ignored_index : ℤ) ∧ e < (ignored_index : ℤ) then t
    else (ignored_index : ℤ) ^ 2) sp ep

/-- `CrossEntropyLossWithDefault`: a learned scalar default logit plus the
(shifted) `ignore_index`; `super_forward` is the opaque external
`nn.CrossEntropyLoss.forward` it delegates to
(arguments: input `[N, C]`, target `int[N]`, ignore index). -/
structure CrossEntropyLossWithDefault where
  default_value : ℚ
  ignore_index : ℤ
  super_forward : List (List ℚ) → List ℤ → ℤ → ℚ

/-- `CrossEntropyLossWithDefault.__init__`: a non-negative `ignore_index`
is shifted by `+1` to account for the prepended default class. -/
def CrossEntropyLossWithDefault.init (default_value : ℚ)
    (super_forward : List (List ℚ) → List ℤ → ℤ → ℚ)
    (ignore_index : ℤ) : CrossEntropyLossWithDefault :=
  { default_value := default_value
    ignore_index := if 0 ≤ ignore_index then ignore_index + 1 else ignore_index
    super_forward := super_forward }

/-- `CrossEntropyLossWithDefault.forward`: prepend the broadcast default
scalar as the leading logit column, shift every target by `+1`, assert
that the minimum shifted target is non-negative (`AssertionError`
otherwise), then delegate to the standard cross entropy. -/
def CrossEntropyLossWithDefault.forward (c : CrossEntropyLossWithDefault)
    (input : List (List ℚ)) (target : List ℤ) : Except String ℚ :=
  let new_input := input.map (fun row => c.default_value :: row)
  let new_target := target.map (fun t => t + 1)
  if new_target.all (fun t => 0 ≤ t) then
    Except.ok (c.super_forward new_input new_target c.ignore_index)
  else Except.error "AssertionError"

/-- `torch.eye(n)` over `ℚ`. -/
def eye (n : ℕ) : List (List ℚ) :=
  (List.range n).map (fun i => (List.range n).map (fun j =>
    if i = j then 1 else 0))

/-- One row of the boundary-filter target:
`embedding(position + 1, torch.eye(length + 2))[1:-1]`. -/
def one_hot_target (length : ℕ) (p : ℤ) : List ℚ :=
  (((eye (length + 2)).getD (p + 1).toNat []).drop 1).dropLast

/-- `nn.Linear(boundary_size, 1)` followed by `squeeze(-1)` applied to a
`[B, L, boundary_size]` tensor; the weight/bias pair is the layer state. -/
def linear_logits (wb : List ℚ × ℚ) (vecs : List (List (List ℚ))) :
    List (List ℚ) :=
  vecs.map (fun rows => rows.map (fun v => ip wb.1 v + wb.2))

/-- `BoundaryFilter`: two linear projections (weight vector, bias) plus
the opaque external `binary_cross_entropy_with_logits`
(arguments: logits `[B, L]`, targets `[B, L]`, pos weight). -/
structure BoundaryFilter where
  start_linear : List ℚ × ℚ
  end_linear : List ℚ × ℚ
  bce_with_logits : List (List ℚ) → List (List ℚ) → ℚ → ℚ

/-- `BoundaryFilter.forward` with no positions (inference mode): the two
per-position logit maps. -/
def BoundaryFilter.forward_infer (f : BoundaryFilter)
    (start_vec end_vec : List (List (List ℚ))) :
    List (List ℚ) × List (List ℚ) :=
  (linear_logits f.start_linear start_vec, linear_logits f.end_linear end_vec)

/-- `BoundaryFilter.forward` with both positions given (training mode).
Clamps the positions in place to `[-1, seq_len]` (the final tensor
contents are returned as the second and third components), looks the
shifted indices up in `eye(seq_len + 2)` stripping the first and last
columns, and combines the two positive-weighted binary cross entropies. -/
def BoundaryFilter.forward_train (f : BoundaryFilter)
    (start_vec end_vec : List (List (List ℚ)))
    (start_positions end_positions : List ℤ) : ℚ × List ℤ × List ℤ :=
  let start_logits := linear_logits f.start_linear start_vec
  let end_logits := linear_logits f.end_linear end_vec
  let ignored_index := dim1 start_logits
  let sp := clamped_positions start_positions ignored_index
  let ep := clamped_positions end_positions ignored_index
  let length := dim1 start_logits
  let start_1hot := sp.map (one_hot_target length)
  let end_1hot := ep.map (one_hot_target length)
  let start_loss := f.bce_with_logits start_logits start_1hot (length : ℚ)
  let end_loss := f.bce_with_logits end_logits end_1hot (length : ℚ)
  ((1/2) * start_loss + (1/2) * end_loss, sp, ep)

/-- Lines 84-86 of `phrase.py`:
`all_logits = start_logits.unsqueeze(2) + end_logits.unsqueeze(1) + cross_logits`
plus `exp_mask = -1e9 * (1.0 - (context_mask.unsqueeze(1) & context_mask.unsqueeze(-1)).float())`. -/
def combine_logits (start_logits end_logits : List (List ℚ))
    (cross_logits : List (List (List ℚ))) (context_mask : List (List Bool)) :
    List (List (List ℚ)) :=
  List.zipWith (fun se cm =>
    List.zipWith (fun sm crow =>
      List.zipWith (fun em cij =>
        sm.1 + em.1 + cij +
          (-1000000000 : ℚ) * (1 - (if em.2 && sm.2 then 1 else 0)))
        (se.2.zip cm.2) crow)
      (se.1.zip cm.2) cm.1)
    (start_logits.zip end_logits) (cross_logits.zip context_mask)

/-- `all_logits.mean(2)` batchwise. -/
def mean_dim2 (m : List (List (List ℚ))) : List (List ℚ) :=
  m.map (fun mat => mat.map (fun row => row.sum / (row.length : ℚ)))

/-- `all_logits.mean(1)` batchwise. -/
def mean_dim1 (m : List (List (List ℚ))) : List (List ℚ) :=
  m.map (fun mat => mat.transpose.map (fun col => col.sum / (col.length : ℚ)))

/-- `all_logits.view(all_logits.size(0), -1)`. -/
def flat2 (m : List (List (List ℚ))) : List (List ℚ) :=
  m.map (fun mat => mat.flatten)

/-- `PhraseModel` state: the opaque encoder capability, configuration,
the learned default scalar, the boundary filter, and the opaque external
`nn.CrossEntropyLoss.forward` that `CrossEntropyLossWithDefault`
delegates to. -/
structure PhraseModel where
  encoder : List (List ℤ) → List (List Bool) → List (List (List ℚ))
  phrase_size : ℕ
  metric : String
  default_value : ℚ
  filter : BoundaryFilter
  nn_cross_entropy : List (List ℚ) → List ℤ → ℤ → ℚ

/-- The possible return values of `PhraseModel.forward`, one constructor
per source `return` statement. -/
inductive PhraseOutput where
  | ctxOnly (start endv span_logits : List (List (List ℚ)))
      (start_filter_logits end_filter_logits : List (List ℚ)) : PhraseOutput
  | queryOnly (query_start query_end q_span_logits : List (List (List ℚ))) :
      PhraseOutput
  | infer (all_logits : List (List (List ℚ)))
      (start_filter_logits end_filter_logits : List (List ℚ)) : PhraseOutput
  | train (loss filter_loss : ℚ) : PhraseOutput
deriving DecidableEq

/-- `PhraseModel.forward`.  Inputs are optional exactly as in the source
(`context`/`query` bundle ids with their mask; positions are `int[B]`).
The result carries the final contents of the caller's `start_positions`
and `end_positions` tensors (which the source mutates in place via
`clamp_`).  Calling with neither context nor query reaches line 80 with
`start` unbound (`NameError`). -/
def PhraseModel.forward (p : PhraseModel)
    (context : Option (List (List ℤ) × List (List Bool)))
    (query : Option (List (List ℤ) × List (List Bool)))
    (start_positions end_positions : Option (List ℤ)) :
    Except String (PhraseOutput × Option (List ℤ) × Option (List ℤ)) :=
  match context, query with
  | some (cids, cmask), none =>
    let enc := encode_phrase (p.encoder cids cmask) p.phrase_size
    let fil := p.filter.forward_infer enc.1 enc.2.1
    Except.ok (PhraseOutput.ctxOnly enc.1 enc.2.1 enc.2.2 fil.1 fil.2,
      start_positions, end_positions)
  | none, some (qids, qmask) =>
    let enc := encode_phrase (p.encoder qids qmask) p.phrase_size true
    Except.ok (PhraseOutput.queryOnly enc.1 enc.2.1 enc.2.2,
      start_positions, end_positions)
  | none, none => Except.error "NameError"
  | some (cids, cmask), some (qids, qmask) =>
    let enc := encode_phrase (p.encoder cids cmask) p.phrase_size
    let start := enc.1
    let endv := enc.2.1
    let span_logits := enc.2.2
    let fil := p.filter.forward_infer start endv
    let sfl := fil.1
    let efl := fil.2
    let encq := encode_phrase (p.encoder qids qmask) p.phrase_size true
    let qs := encq.1
    let qe := encq.2.1
    let qsl := encq.2.2
    match get_logits2 p.metric (bpairs start qs),
          get_logits2 p.metric (bpairs endv qe),
          get_logits3 p.metric (bpairs3 span_logits qsl) with
    | Except.error msg, _, _ => Except.error msg
    | Except.ok _, Except.error msg, _ => Except.error msg
    | Except.ok _, Except.ok _, Except.error msg => Except.error msg
    | Except.ok start_logits, Except.ok end_logits, Except.ok cross_logits =>
      let all_logits := combine_logits start_logits end_logits cross_logits cmask
      match start_positions, end_positions with
      | some sp0, some ep0 =>
        let ignored_index := dim1 start_logits
        let span_ignored_index := ignored_index ^ 2
        let sp := clamped_positions sp0 ignored_index
        let ep := clamped_positions ep0 ignored_index
        let cel_1d := CrossEntropyLossWithDefault.init p.default_value
          p.nn_cross_entropy (ignored_index : ℤ)
        let cel_2d := CrossEntropyLossWithDefault.init p.default_value
          p.nn_cross_entropy (span_ignored_index : ℤ)
        let span_target := span_targets sp ep ignored_index
        match cel_2d.forward (flat2 all_logits) span_target with
        | Except.error msg => Except.error msg
        | Except.ok true_loss =>
          match cel_1d.forward (mean_dim2 all_logits) sp,
                cel_1d.forward (mean_dim1 all_logits) ep with
          | Except.error msg, _ => Except.error msg
          | Except.ok _, Except.error msg => Except.error msg
          | Except.ok h1, Except.ok h2 =>
            let help_loss := (1/2) * (h1 + h2)
            let loss := true_loss + help_loss
            let ftr := p.filter.forward_train start endv sp ep
            Except.ok (PhraseOutput.train loss ftr.1, some ftr.2.1, some ftr.2.2)
      | _, _ =>
        Except.ok (PhraseOutput.infer all_logits sfl efl,
          start_positions, end_positions)

/-- Whether an embedded call returned normally. -/
def exceptOk {ε α : Type} : Except ε α → Bool
  | Except.ok _ => true
  | Except.error _ => false

/-- The final contents of the caller's two position tensors after a
`PhraseModel.forward` call (both arbitrary if the call raised). -/
def final_positions
    (r : Except String (PhraseOutput × Option (List ℤ) × Option (List ℤ))) :
    Option (List ℤ) × Option (List ℤ) :=
  match r with
  | Except.ok x => x.2
  | Except.error _ => (none, none)

/-- A concrete model instance for evaluating the embedding: batch 1,
sequence length 1, hidden width 4, `phrase_size` 3, metric `'ip'`,
opaque externals instantiated with constant-zero losses. -/
def pm_test : PhraseModel :=
  { encoder := fun _ _ => [[[1, 0, 1, 0]]]
    phrase_size := 3
    metric := "ip"
    default_value := 0
    filter :=
      { start_linear := ([1], 0)
        end_linear := ([1], 0)
        bce_with_logits := fun _ _ _ => 0 }
    nn_cross_entropy := fun _ _ _ => 0 }

/-- `pm_test` with an unknown metric name. -/
def pm_bad_metric : PhraseModel :=
  { pm_test with metric := "cosine" }

/-- Entry `[b][i][j]` of an embedded `[B, L, L]` tensor. -/
def get3 (m : List (List (List ℚ))) (b i j : ℕ) : ℚ :=
  ((m.getD b []).getD i []).getD j 0

/-- Shape check for an embedded `[B, L, W]` tensor. -/
def shape3 (m : List (List (List ℚ))) (B L W : ℕ) : Bool :=
  (m.length == B) && m.all (fun rows =>
    (rows.length == L) && rows.all (fun v => v.length == W))

/-- The `PhraseOutput` component of a normal `PhraseModel.forward` return. -/
def output_part
    (r : Except String (PhraseOutput × Option (List ℤ) × Option (List ℤ))) :
    Option PhraseOutput :=
  match r with
  | Except.ok x => some x.1
  | Except.error _ => none

/-- Whether a `PhraseModel.forward` call returned through the inference
branch, i.e. with `(all_logits, start_filter_logits, end_filter_logits)`. -/
def infer_shaped
    (r : Except String (PhraseOutput × Option (List ℤ) × Option (List ℤ))) :
    Bool :=
  match r with
  | Except.ok (PhraseOutput.infer _ _ _, _, _) => true
  | _ => false

/-! ## Helper lemmas -/

theorem exists_of_mem_zipWith {α β γ : Type} {f : α → β → γ} {c : γ} :
    ∀ {as : List α} {bs : List β}, c ∈ List.zipWith f as bs →
      ∃ a b, a ∈ as ∧ b ∈ bs ∧ c = f a b := by
  intro as
  induction as with
  | nil => intro bs h; simp at h
  | cons a as ih =>
    intro bs h
    cases bs with
    | nil => simp at h
    | cons b bs =>
      rw [List.zipWith_cons_cons, List.mem_cons] at h
      rcases h with h | h
      · exact ⟨a, b, by simp, by simp, h⟩
      · obtain ⟨a', b', ha, hb, rfl⟩ := ih h
        exact ⟨a', b', by simp [ha], by simp [hb], rfl⟩

theorem mem_clamped_positions {t : ℤ} {pos : List ℤ} {idx : ℕ}
    (h : t ∈ clamped_positions pos idx) : -1 ≤ t ∧ t ≤ (idx : ℤ) := by
  simp only [clamped_positions, List.mem_map] at h
  obtain ⟨x, _, rfl⟩ := h
  unfold clamp1
  omega

theorem clamped_positions_idem (pos : List ℤ) (idx : ℕ) :
    clamped_positions (clamped_positions pos idx) idx =
      clamped_positions pos idx := by
  unfold clamped_positions
  rw [List.map_map]
  apply List.map_congr_left
  intro x _
  simp only [Function.comp_apply, clamp1]
  omega

theorem clamped_positions_eq_self_iff (pos : List ℤ) (idx : ℕ) :
    clamped_positions pos idx = pos ↔
      ∀ x ∈ pos, -1 ≤ x ∧ x ≤ (idx : ℤ) := by
  unfold clamped_positions
  induction pos with
  | nil => simp
  | cons a l ih =>
    simp only [List.map_cons, List.cons.injEq, List.mem_cons]
    constructor
    · rintro ⟨h1, h2⟩ x hx
      rcases hx with rfl | hx
      · unfold clamp1 at h1; omega
      · exact (ih.mp h2) x hx
    · intro h
      refine ⟨?_, ih.mpr fun x hx => h x (Or.inr hx)⟩
      have := h a (Or.inl rfl)
      unfold clamp1
      omega

theorem span_targets_ge_neg_one {t : ℤ} {sp ep : List ℤ} {idx : ℕ}
    (h : t ∈ span_targets sp ep idx) : -1 ≤ t := by
  unfold span_targets at h
  obtain ⟨s, e, _, _, rfl⟩ := exists_of_mem_zipWith h
  have hK : (0 : ℤ) ≤ (idx : ℤ) ^ 2 := sq_nonneg _
  dsimp only
  split
  · generalize ((idx : ℤ)) ^ 2 = K at hK ⊢
    omega
  · omega

theorem cel_forward_eq_of_targets (c : CrossEntropyLossWithDefault)
    (input : List (List ℚ)) (target : List ℤ)
    (h : ∀ t ∈ target, -1 ≤ t) :
    c.forward input target =
      Except.ok (c.super_forward
        (input.map (fun row => c.default_value :: row))
        (target.map (fun t => t + 1)) c.ignore_index) := by
  have hb : ((target.map (fun t => t + 1)).all (fun t => decide (0 ≤ t))) = true := by
    simp only [List.all_eq_true, List.mem_map, decide_eq_true_eq]
    rintro t ⟨x, hx, rfl⟩
    have := h x hx
    omega
  unfold CrossEntropyLossWithDefault.forward
  simp only [hb, if_true]

/-! ## Claim theorems -/

/-- C5: for every pair of vectors `a`, `b`, the `'l2'` metric of
`get_logits` equals `get_logits(a, b, 'ip') - 0.5 * (get_logits(a, a, 'ip')
+ get_logits(b, b, 'ip'))`, where the `'ip'` metric is the inner product
over the feature axis. -/
theorem get_logits_l2_eq_ip_combination (a b : List ℚ) (u v w : ℚ)
    (hu : get_logits a b "ip" = Except.ok u)
    (hv : get_logits a a "ip" = Except.ok v)
    (hw : get_logits b b "ip" = Except.ok w) :
    get_logits a b "l2" = Except.ok (u - (1/2) * (v + w)) := by
  unfold get_logits at hu hv hw ⊢
  rw [if_pos rfl] at hu hv hw
  rw [if_neg (by decide), if_pos rfl]
  injection hu with hu
  injection hv with hv
  injection hw with hw
  rw [hu, hv, hw]

/-- Witness for C5 at `a = [1, 2]`, `b = [3, 4]`. -/
theorem get_logits_l2_eq_ip_combination_witness :
    get_logits [1, 2] [3, 4] "l2" = Except.ok (11 - (1/2) * (5 + 25)) :=
  get_logits_l2_eq_ip_combination [1, 2] [3, 4] 11 5 25
    (by norm_num [get_logits, ip]) (by norm_num [get_logits, ip])
    (by norm_num [get_logits, ip])

/-- C8: for a metric name outside `{'ip', 'l2'}`, `get_logits` raises
`ValueError(metric)`, and a `PhraseModel` configured with that metric
fails at its first scoring call (any joint-mode `forward`), construction
itself raising nothing. -/
theorem unknown_metric_fails (metric : String) (a b : List ℚ)
    (p : PhraseModel) (ctx qry : List (List ℤ) × List (List Bool))
    (sp ep : Option (List ℤ))
    (h1 : metric ≠ "ip") (h2 : metric ≠ "l2") (hp : p.metric = metric) :
    get_logits a b metric = Except.error metric ∧
    PhraseModel.forward p (some ctx) (some qry) sp ep = Except.error metric := by
  constructor
  · simp [get_logits, h1, h2]
  · obtain ⟨cids, cmask⟩ := ctx
    obtain ⟨qids, qmask⟩ := qry
    simp [PhraseModel.forward, get_logits2, get_logits3, hp, h1, h2]

/-- Witness for C8 at metric `'cosine'`. -/
theorem unknown_metric_fails_witness :
    get_logits [1] [1] "cosine" = Except.error "cosine" ∧
    PhraseModel.forward pm_bad_metric (some ([[0]], [[true]]))
      (some ([[0]], [[true]])) none none = Except.error "cosine" :=
  unknown_metric_fails "cosine" [1] [1] pm_bad_metric ([[0]], [[true]])
    ([[0]], [[true]]) none none (by decide) (by decide) rfl

/-- C1 counterexample: with `L_c = 2` and `start_positions = [-1]`,
`end_positions = [-1]`, the training branch produces `span_target = [-1]`
(the clamp of the arithmetic combination), not the claimed `[L_c ^ 2]`. -/
theorem span_target_sentinel_counterexample :
    span_targets (clamped_positions [-1] 2) (clamped_positions [-1] 2) 2 =
      [-1] ∧ ([-1] : List ℤ) ≠ [(2 : ℤ) ^ 2] := by
  constructor
  · decide
  · decide

/-- C1 amended: `span_target` is overridden to the flat index `L_c ^ 2`
exactly when one of the positions is at least `L_c` (i.e. equals `L_c`,
the ignored index, after the clamp); for `start = end = -1` the target is
`-1` (the negative arithmetic combination clamped up to `-1`), which the
default-aware loss routes to the learned no-answer class. -/
theorem span_target_routing (s e : ℤ) (Lc : ℕ) :
    (span_targets (clamped_positions [s] Lc) (clamped_positions [e] Lc) Lc =
        [(Lc : ℤ) ^ 2] ↔ ((Lc : ℤ) ≤ s ∨ (Lc : ℤ) ≤ e)) ∧
    span_targets (clamped_positions [-1] Lc) (clamped_positions [-1] Lc) Lc =
      [-1] := by
  have hLc : (0 : ℤ) ≤ (Lc : ℤ) := Int.natCast_nonneg Lc
  have hK : (0 : ℤ) ≤ (Lc : ℤ) ^ 2 := sq_nonneg _
  constructor
  · simp only [span_targets, clamped_positions, List.map_cons, List.map_nil,
      clamp1, List.zipWith_cons_cons, List.zipWith_nil_right,
      List.cons.injEq, and_true]
    by_cases hs : (Lc : ℤ) ≤ s
    · have h1 : max (-1) (min s (Lc : ℤ)) = (Lc : ℤ) := by omega
      rw [h1, if_neg (by omega)]
      simp [hs]
    · by_cases he : (Lc : ℤ) ≤ e
      · have h1 : max (-1) (min e (Lc : ℤ)) = (Lc : ℤ) := by omega
        rw [h1, if_neg (by omega)]
        simp [he]
      · have h1 : max (-1) (min s (Lc : ℤ)) = max (-1) s := by omega
        have h2 : max (-1) (min e (Lc : ℤ)) = max (-1) e := by omega
        rw [h1, h2, if_pos ⟨by omega, by omega⟩]
        have hcs : max (-1) s ≤ (Lc : ℤ) - 1 := by omega
        have hce : max (-1) e ≤ (Lc : ℤ) - 1 := by omega
        have hmul : max (-1) s * (Lc : ℤ) ≤ ((Lc : ℤ) - 1) * (Lc : ℤ) :=
          mul_le_mul_of_nonneg_right hcs hLc
        have hlt : max (-1) s * (Lc : ℤ) + max (-1) e < (Lc : ℤ) ^ 2 := by
          nlinarith
        constructor
        · intro hx
          exfalso
          generalize hT : max (-1) s * (Lc : ℤ) + max (-1) e = T at hx hlt
          generalize hKk : ((Lc : ℤ)) ^ 2 = K at hx hlt hK
          omega
        · intro hx
          omega
  · simp only [span_targets, clamped_positions, List.map_cons, List.map_nil,
      clamp1, List.zipWith_cons_cons, List.zipWith_nil_right,
      List.cons.injEq, and_true]
    have h1 : max (-1) (min (-1) (Lc : ℤ)) = -1 := by omega
    rw [h1, if_pos ⟨by omega, by omega⟩]
    generalize hKk : ((Lc : ℤ)) ^ 2 = K at hK
    omega

/-- C2: `CrossEntropyLossWithDefault` prepends the learned default scalar
as the leading logit column of every batch row, shifts every target by
`+1` (the sentinel `-1` becomes class `0`, which is never the ignore
index, hence not ignored), shifts a non-negative `ignore_index` by `+1`
at construction, and returns exactly the external standard cross entropy
of the augmented logits against the shifted targets with the shifted
ignore index. -/
theorem default_loss_augmentation (d : ℚ) (ig : ℤ)
    (ce : List (List ℚ) → List ℤ → ℤ → ℚ)
    (input : List (List ℚ)) (target : List ℤ)
    (h : ∀ t ∈ target, -1 ≤ t) :
    (CrossEntropyLossWithDefault.init d ce ig).forward input target =
      Except.ok (ce (input.map (fun row => d :: row))
        (target.map (fun t => t + 1)) (if 0 ≤ ig then ig + 1 else ig)) ∧
    (CrossEntropyLossWithDefault.init d ce ig).ignore_index =
      (if 0 ≤ ig then ig + 1 else ig) ∧
    (CrossEntropyLossWithDefault.init d ce ig).ignore_index ≠ 0 ∧
    (-1 : ℤ) + 1 = 0 := by
  refine ⟨?_, rfl, ?_, rfl⟩
  · rw [cel_forward_eq_of_targets _ _ _ h]
    rfl
  · simp only [CrossEntropyLossWithDefault.init]
    split <;> omega

/-- Witness for C2 at `d = 2`, `ig = -100`, `target = [-1, 0]`. -/
theorem default_loss_augmentation_witness :
    (CrossEntropyLossWithDefault.init 2 (fun _ _ _ => 7) (-100)).forward
        [[1], [3]] [-1, 0] =
      Except.ok ((fun (_ : List (List ℚ)) (_ : List ℤ) (_ : ℤ) => (7 : ℚ))
        ([[1], [3]].map (fun row => 2 :: row)) ([-1, 0].map (fun t => t + 1))
        (if 0 ≤ (-100 : ℤ) then (-100 : ℤ) + 1 else -100)) ∧
    (CrossEntropyLossWithDefault.init 2 (fun _ _ _ => 7) (-100)).ignore_index =
      (if 0 ≤ (-100 : ℤ) then (-100 : ℤ) + 1 else -100) ∧
    (CrossEntropyLossWithDefault.init 2 (fun _ _ _ => 7) (-100)).ignore_index ≠ 0 ∧
    (-1 : ℤ) + 1 = 0 :=
  default_loss_augmentation 2 (-100) (fun _ _ _ => 7) [[1], [3]] [-1, 0]
    (by decide)

/-- C6: under the precondition that every target is at least `-1`, the
assertion in `CrossEntropyLossWithDefault.forward` passes; the training
branch of `PhraseModel.forward` guarantees the precondition, since both
its clamped 1-D targets and its 2-D `span_targets` are always at least
`-1`, so the assertion is unreachable there. -/
theorem default_loss_assertion_unreachable (d : ℚ)
    (ce : List (List ℚ) → List ℤ → ℤ → ℚ)
    (input1 input2 : List (List ℚ)) (target sp ep : List ℤ) (Lc : ℕ)
    (hpre : target.all (fun t => decide (-1 ≤ t)) = true) :
    exceptOk ((CrossEntropyLossWithDefault.init d ce (Lc : ℤ)).forward
      input1 target) = true ∧
    exceptOk ((CrossEntropyLossWithDefault.init d ce (Lc : ℤ)).forward
      input1 (clamped_positions sp Lc)) = true ∧
    exceptOk ((CrossEntropyLossWithDefault.init d ce ((Lc ^ 2 : ℕ) : ℤ)).forward
      input2 (span_targets (clamped_positions sp Lc) (clamped_positions ep Lc)
        Lc)) = true := by
  simp only [List.all_eq_true, decide_eq_true_eq] at hpre
  refine ⟨?_, ?_, ?_⟩
  · rw [cel_forward_eq_of_targets _ _ _ hpre]; rfl
  · rw [cel_forward_eq_of_targets _ _ _
      (fun t ht => (mem_clamped_positions ht).1)]
    rfl
  · rw [cel_forward_eq_of_targets _ _ _
      (fun t ht => span_targets_ge_neg_one ht)]
    rfl

/-- Witness for C6 at `Lc = 1`, `target = [-1, 5]`, `sp = [-1, 5]`,
`ep = [0, -1]`. -/
theorem default_loss_assertion_unreachable_witness :
    exceptOk ((CrossEntropyLossWithDefault.init 0 (fun _ _ _ => 0) ((1 : ℕ) : ℤ)).forward
      [[1]] [-1, 5]) = true ∧
    exceptOk ((CrossEntropyLossWithDefault.init 0 (fun _ _ _ => 0) ((1 : ℕ) : ℤ)).forward
      [[1]] (clamped_positions [-1, 5] 1)) = true ∧
    exceptOk ((CrossEntropyLossWithDefault.init 0 (fun _ _ _ => 0) ((1 ^ 2 : ℕ) : ℤ)).forward
      [[1]] (span_targets (clamped_positions [-1, 5] 1)
        (clamped_positions [0, -1] 1) 1)) = true :=
  default_loss_assertion_unreachable 0 (fun _ _ _ => 0) [[1]] [[1]] [-1, 5]
    [-1, 5] [0, -1] 1 (by decide)

/-- C4: in joint mode, every entry of the combined score tensor equals
`start_logits[b,i] + end_logits[b,j] + cross_logits[b,i,j]` plus a mask
term that is `0` where `context_mask[b,i] && context_mask[b,j]` holds and
exactly `-1e9` where it fails. -/
theorem all_logits_entry (s e : List (List ℚ)) (cl : List (List (List ℚ)))
    (m : List (List Bool)) (b i j : ℕ)
    (hbs : b < s.length) (hbe : b < e.length) (hbc : b < cl.length)
    (hbm : b < m.length)
    (his : i < (s.getD b []).length) (him : i < (m.getD b []).length)
    (hic : i < (cl.getD b []).length)
    (hje : j < (e.getD b []).length) (hjm : j < (m.getD b []).length)
    (hjc : j < ((cl.getD b []).getD i []).length) :
    get3 (combine_logits s e cl m) b i j =
      (s.getD b []).getD i 0 + (e.getD b []).getD j 0 + get3 cl b i j +
      (if ((m.getD b []).getD i false && (m.getD b []).getD j false) = true
        then 0 else -1000000000) := by
  rw [List.getD_eq_getElem _ _ hbs] at his
  rw [List.getD_eq_getElem _ _ hbm] at him hjm
  rw [List.getD_eq_getElem _ _ hbc] at hic
  rw [List.getD_eq_getElem _ _ hbc, List.getD_eq_getElem _ _ hic] at hjc
  rw [List.getD_eq_getElem _ _ hbe] at hje
  have hb' : b < (combine_logits s e cl m).length := by
    unfold combine_logits
    rw [List.length_zipWith, List.length_zip, List.length_zip]
    omega
  have hi' : i < ((combine_logits s e cl m)[b]).length := by
    unfold combine_logits
    simp only [List.getElem_zipWith, List.getElem_zip, List.length_zipWith,
      List.length_zip]
    omega
  have hj' : j < (((combine_logits s e cl m)[b])[i]).length := by
    unfold combine_logits
    simp only [List.getElem_zipWith, List.getElem_zip, List.length_zipWith,
      List.length_zip]
    omega
  have hval : (((combine_logits s e cl m)[b])[i])[j] =
      ((s[b])[i] : ℚ) + (e[b])[j] + ((cl[b])[i])[j] +
        (-1000000000 : ℚ) *
          (1 - (if (m[b])[j] && (m[b])[i] then 1 else 0)) := by
    unfold combine_logits
    simp only [List.getElem_zipWith, List.getElem_zip]
  unfold get3
  rw [List.getD_eq_getElem _ _ hb', List.getD_eq_getElem _ _ hi',
    List.getD_eq_getElem _ _ hj', hval]
  rw [List.getD_eq_getElem _ _ hbs, List.getD_eq_getElem _ _ his]
  rw [List.getD_eq_getElem _ _ hbe, List.getD_eq_getElem _ _ hje]
  rw [List.getD_eq_getElem _ _ hbc, List.getD_eq_getElem _ _ hic,
    List.getD_eq_getElem _ _ hjc]
  rw [List.getD_eq_getElem _ _ hbm, List.getD_eq_getElem _ _ him,
    List.getD_eq_getElem _ _ hjm]
  rw [Bool.and_comm]
  cases ((m[b])[i] && (m[b])[j]) <;> norm_num

/-- Witness for C4 on a concrete `2 x 2` joint score tensor. -/
theorem all_logits_entry_witness :
    get3 (combine_logits [[10, 20]] [[3, 4]] [[[100, 200], [300, 400]]]
      [[true, false]]) 0 0 1 =
      ([[10, 20]].getD 0 []).getD 0 0 + ([[3, 4]].getD 0 []).getD 1 0 +
      get3 [[[100, 200], [300, 400]]] 0 0 1 +
      (if (([[true, false]].getD 0 []).getD 0 false &&
            ([[true, false]].getD 0 []).getD 1 false) = true
        then 0 else -1000000000) :=
  all_logits_entry [[10, 20]] [[3, 4]] [[[100, 200], [300, 400]]]
    [[true, false]] 0 0 1 (by decide) (by decide) (by decide) (by decide)
    (by decide) (by decide) (by decide) (by decide) (by decide) (by decide)

/-- Bridge from the Boolean shape check to its propositional reading. -/
theorem shape3_iff (xs : List (List (List ℚ))) (B L W : ℕ) :
    shape3 xs B L W = true ↔
      (xs.length = B ∧ ∀ rows ∈ xs, rows.length = L ∧
        ∀ v ∈ rows, v.length = W) := by
  simp [shape3, List.all_eq_true]

/-- C7: for a `(batch, L, D)` input layer with odd `phrase_size P` (and
`P - 1 ≤ D`, `1 ≤ L`), `encode_phrase` returns `start` and `end` of shape
`(batch, L, (P-1)/2)` and `span_logits` of shape `(batch, L, L)`; with
`get_first_only` it returns `start`/`end` of shape `(batch, 1, (P-1)/2)`
and `span_logits` of shape `(batch, 1, 1)`.  (The source performs no
in-place operation on `layer`; the embedding is a pure function of it.) -/
theorem encode_phrase_shape_law (layer : List (List (List ℚ))) (L D P : ℕ)
    (hP : P % 2 = 1) (hPD : P - 1 ≤ D) (hL : 1 ≤ L)
    (hshape : shape3 layer layer.length L D = true) :
    shape3 (encode_phrase layer P false).1 layer.length L ((P - 1) / 2) = true ∧
    shape3 (encode_phrase layer P false).2.1 layer.length L ((P - 1) / 2) = true ∧
    shape3 (encode_phrase layer P false).2.2 layer.length L L = true ∧
    shape3 (encode_phrase layer P true).1 layer.length 1 ((P - 1) / 2) = true ∧
    shape3 (encode_phrase layer P true).2.1 layer.length 1 ((P - 1) / 2) = true ∧
    shape3 (encode_phrase layer P true).2.2 layer.length 1 1 = true := by
  rw [shape3_iff] at hshape
  have hrowlen : ∀ r ∈ layer, r.length = L := fun r hr => (hshape.2 r hr).1
  have hveclen : ∀ r ∈ layer, ∀ v ∈ r, v.length = D :=
    fun r hr => (hshape.2 r hr).2
  have htake : ∀ r ∈ layer, ∀ v ∈ r,
      (chunk2 (v.take (P - 1))).1.length = (P - 1) / 2 := by
    intro r hr v hv
    have hv' := hveclen r hr v hv
    simp only [chunk2, List.length_take]
    omega
  have hdrop : ∀ r ∈ layer, ∀ v ∈ r,
      (chunk2 (v.take (P - 1))).2.length = (P - 1) / 2 := by
    intro r hr v hv
    have hv' := hveclen r hr v hv
    simp only [chunk2, List.length_drop, List.length_take]
    omega
  have e1 : (encode_phrase layer P false).1 =
      layer.map (fun rows => rows.map (fun v =>
        (chunk2 (v.take (P - 1))).1)) := rfl
  have e2 : (encode_phrase layer P false).2.1 =
      layer.map (fun rows => rows.map (fun v =>
        (chunk2 (v.take (P - 1))).2)) := rfl
  have e3 : (encode_phrase layer P false).2.2 =
      List.zipWith (fun ss se => ss.map (fun si => se.map (fun sj => ip si sj)))
        (layer.map (fun rows => rows.map (fun v =>
          (chunk2 (v.drop (P - 1))).1)))
        (layer.map (fun rows => rows.map (fun v =>
          (chunk2 (v.drop (P - 1))).2))) := rfl
  have e4 : (encode_phrase layer P true).1 =
      (layer.map (fun rows => rows.map (fun v =>
        (chunk2 (v.take (P - 1))).1))).map (fun rows => rows.take 1) := rfl
  have e5 : (encode_phrase layer P true).2.1 =
      (layer.map (fun rows => rows.map (fun v =>
        (chunk2 (v.take (P - 1))).2))).map (fun rows => rows.take 1) := rfl
  have e6 : (encode_phrase layer P true).2.2 =
      (List.zipWith (fun ss se => ss.map (fun si => se.map (fun sj => ip si sj)))
        (layer.map (fun rows => rows.map (fun v =>
          (chunk2 (v.drop (P - 1))).1)))
        (layer.map (fun rows => rows.map (fun v =>
          (chunk2 (v.drop (P - 1))).2)))).map (fun m =>
            (m.take 1).map (fun r => r.take 1)) := rfl
  refine ⟨?_, ?_, ?_, ?_, ?_, ?_⟩
  · rw [e1, shape3_iff]
    refine ⟨by simp, ?_⟩
    intro rows hrws
    obtain ⟨r, hr, rfl⟩ := List.mem_map.mp hrws
    refine ⟨by simp [hrowlen r hr], ?_⟩
    intro v hv
    obtain ⟨x, hx, rfl⟩ := List.mem_map.mp hv
    exact htake r hr x hx
  · rw [e2, shape3_iff]
    refine ⟨by simp, ?_⟩
    intro rows hrws
    obtain ⟨r, hr, rfl⟩ := List.mem_map.mp hrws
    refine ⟨by simp [hrowlen r hr], ?_⟩
    intro v hv
    obtain ⟨x, hx, rfl⟩ := List.mem_map.mp hv
    exact hdrop r hr x hx
  · rw [e3, shape3_iff]
    refine ⟨by simp [List.length_zipWith], ?_⟩
    intro rows hrws
    obtain ⟨ss, se, hss, hse, rfl⟩ := exists_of_mem_zipWith hrws
    obtain ⟨r1, hr1, rfl⟩ := List.mem_map.mp hss
    obtain ⟨r2, hr2, rfl⟩ := List.mem_map.mp hse
    refine ⟨by simp [hrowlen r1 hr1], ?_⟩
    intro v hv
    obtain ⟨si, hsi, rfl⟩ := List.mem_map.mp hv
    simp [hrowlen r2 hr2]
  · rw [e4, shape3_iff]
    refine ⟨by simp, ?_⟩
    intro rows hrws
    obtain ⟨rows0, hrows0, rfl⟩ := List.mem_map.mp hrws
    obtain ⟨r, hr, rfl⟩ := List.mem_map.mp hrows0
    refine ⟨by simp [List.length_take, hrowlen r hr]; omega, ?_⟩
    intro v hv
    have hv2 := List.take_subset _ _ hv
    obtain ⟨x, hx, rfl⟩ := List.mem_map.mp hv2
    exact htake r hr x hx
  · rw [e5, shape3_iff]
    refine ⟨by simp, ?_⟩
    intro rows hrws
    obtain ⟨rows0, hrows0, rfl⟩ := List.mem_map.mp hrws
    obtain ⟨r, hr, rfl⟩ := List.mem_map.mp hrows0
    refine ⟨by simp [List.length_take, hrowlen r hr]; omega, ?_⟩
    intro v hv
    have hv2 := List.take_subset _ _ hv
    obtain ⟨x, hx, rfl⟩ := List.mem_map.mp hv2
    exact hdrop r hr x hx
  · rw [e6, shape3_iff]
    refine ⟨by simp [List.length_zipWith], ?_⟩
    intro rows hrws
    obtain ⟨mat, hmat, rfl⟩ := List.mem_map.mp hrws
    obtain ⟨ss, se, hss, hse, rfl⟩ := exists_of_mem_zipWith hmat
    obtain ⟨r1, hr1, rfl⟩ := List.mem_map.mp hss
    obtain ⟨r2, hr2, rfl⟩ := List.mem_map.mp hse
    refine ⟨?_, ?_⟩
    · simp only [List.length_map, List.length_take]
      have := hrowlen r1 hr1
      simp only [List.length_map, this]
      omega
    · intro v hv
      obtain ⟨rr, hrr, rfl⟩ := List.mem_map.mp hv
      have hrr2 := List.take_subset _ _ hrr
      obtain ⟨si, hsi, rfl⟩ := List.mem_map.mp hrr2
      simp only [List.length_take, List.length_map]
      have := hrowlen r2 hr2
      rw [this]
      omega

/-- Witness for C7 at batch 1, `L = 1`, `D = 7`, `P = 5`. -/
theorem encode_phrase_shape_law_witness :
    shape3 (encode_phrase [[[1, 2, 3, 4, 5, 6, 7]]] 5 false).1 1 1 2 = true ∧
    shape3 (encode_phrase [[[1, 2, 3, 4, 5, 6, 7]]] 5 false).2.1 1 1 2 = true ∧
    shape3 (encode_phrase [[[1, 2, 3, 4, 5, 6, 7]]] 5 false).2.2 1 1 1 = true ∧
    shape3 (encode_phrase [[[1, 2, 3, 4, 5, 6, 7]]] 5 true).1 1 1 2 = true ∧
    shape3 (encode_phrase [[[1, 2, 3, 4, 5, 6, 7]]] 5 true).2.1 1 1 2 = true ∧
    shape3 (encode_phrase [[[1, 2, 3, 4, 5, 6, 7]]] 5 true).2.2 1 1 1 = true :=
  encode_phrase_shape_law [[[1, 2, 3, 4, 5, 6, 7]]] 1 7 5 (by decide)
    (by decide) (by decide) (by decide)

/-- C9: in training mode `BoundaryFilter.forward` clamps the positions to
`[-1, seq_len]`, builds per-position binary target rows of length
`seq_len` in which a clamped index of `-1` or `seq_len` yields an all-zero
row and a valid index `0 <= p < seq_len` a one-hot row at `p`, feeds each
logit map to the external positive-weighted binary cross entropy with
positive-class weight `seq_len`, and returns
`0.5 * start_loss + 0.5 * end_loss`. -/
theorem boundary_filter_training (fl : BoundaryFilter)
    (sv ev : List (List (List ℚ))) (sp ep : List ℤ) (L : ℕ) (pz : ℤ) (j : ℕ)
    (hL : L = dim1 (linear_logits fl.start_linear sv))
    (h1 : -1 ≤ pz) (h2 : pz ≤ (L : ℤ)) (h3 : j < L) :
    fl.forward_train sv ev sp ep =
      ((1/2) * fl.bce_with_logits (linear_logits fl.start_linear sv)
          ((clamped_positions sp L).map (one_hot_target L)) (L : ℚ) +
       (1/2) * fl.bce_with_logits (linear_logits fl.end_linear ev)
          ((clamped_positions ep L).map (one_hot_target L)) (L : ℚ),
       clamped_positions sp L, clamped_positions ep L) ∧
    (one_hot_target L pz).length = L ∧
    (one_hot_target L pz).getD j 0 = (if (j : ℤ) = pz then 1 else 0) := by
  have hidx : (pz + 1).toNat < L + 2 := by omega
  have hidx' : (pz + 1).toNat < (List.range (L + 2)).length := by
    simpa using hidx
  have hrowe : (eye (L + 2)).getD (pz + 1).toNat [] =
      (List.range (L + 2)).map (fun jj =>
        if (pz + 1).toNat = jj then (1 : ℚ) else 0) := by
    unfold eye
    rw [List.getD_eq_getElem _ _ (by simpa using hidx)]
    rw [List.getElem_map, List.getElem_range]
  have hlen : (one_hot_target L pz).length = L := by
    unfold one_hot_target
    rw [hrowe]
    simp [List.length_dropLast, List.length_drop]
  refine ⟨?_, hlen, ?_⟩
  · subst hL
    rfl
  · have hj1 : j < ((((List.range (L + 2)).map (fun jj =>
        if (pz + 1).toNat = jj then (1 : ℚ) else 0)).drop 1).dropLast).length := by
      simp only [List.length_dropLast, List.length_drop, List.length_map,
        List.length_range]
      omega
    unfold one_hot_target
    rw [hrowe]
    rw [List.getD_eq_getElem _ _ hj1]
    rw [List.getElem_dropLast, List.getElem_drop, List.getElem_map,
      List.getElem_range]
    rcases eq_or_ne ((j : ℤ)) pz with hj | hj
    · rw [if_pos (by omega), if_pos hj]
    · rw [if_neg (by omega), if_neg hj]

/-- Witness for C9 with a batch-1, length-2 input and `pz = 0`, `j = 1`. -/
theorem boundary_filter_training_witness :
    pm_test.filter.forward_train [[[1], [2]]] [[[3], [4]]] [5] [-3] =
      ((1/2) * pm_test.filter.bce_with_logits
          (linear_logits pm_test.filter.start_linear [[[1], [2]]])
          ((clamped_positions [5] 2).map (one_hot_target 2)) ((2 : ℕ) : ℚ) +
       (1/2) * pm_test.filter.bce_with_logits
          (linear_logits pm_test.filter.end_linear [[[3], [4]]])
          ((clamped_positions [-3] 2).map (one_hot_target 2)) ((2 : ℕ) : ℚ),
       clamped_positions [5] 2, clamped_positions [-3] 2) ∧
    (one_hot_target 2 0).length = 2 ∧
    (one_hot_target 2 0).getD 1 0 = (if ((1 : ℕ) : ℤ) = 0 then 1 else 0) :=
  boundary_filter_training pm_test.filter [[[1], [2]]] [[[3], [4]]] [5] [-3]
    2 0 1 (by decide) (by decide) (by decide) (by decide)

theorem get_logits2_ip (pairs : List (List (List ℚ × List ℚ))) :
    get_logits2 "ip" pairs =
      Except.ok (pairs.map (fun r => r.map (fun ab => ip ab.1 ab.2))) := rfl

theorem get_logits2_l2 (pairs : List (List (List ℚ × List ℚ))) :
    get_logits2 "l2" pairs =
      Except.ok (pairs.map (fun r => r.map (fun ab =>
        ip ab.1 ab.2 - (1/2) * (ip ab.1 ab.1 + ip ab.2 ab.2)))) := rfl

theorem get_logits3_ip (pairs : List (List (List (ℚ × ℚ)))) :
    get_logits3 "ip" pairs =
      Except.ok (pairs.map (fun m => m.map (fun r => r.map (fun ab =>
        ip [ab.1] [ab.2])))) := rfl

theorem get_logits3_l2 (pairs : List (List (List (ℚ × ℚ)))) :
    get_logits3 "l2" pairs =
      Except.ok (pairs.map (fun m => m.map (fun r => r.map (fun ab =>
        ip [ab.1] [ab.2] - (1/2) * (ip [ab.1] [ab.1] + ip [ab.2] [ab.2]))))) :=
  rfl

/-- C10: with context and query both supplied but exactly one of
`start_positions` / `end_positions` given, `PhraseModel.forward` takes the
inference branch: it returns the `(all_logits, start_filter_logits,
end_filter_logits)` triple, identical to the output of the no-positions
call, and the supplied position tensor is passed through unclamped and
unmutated. -/
theorem single_position_inference (p : PhraseModel)
    (hm : p.metric = "ip" ∨ p.metric = "l2")
    (ctx qry : List (List ℤ) × List (List Bool)) (sp ep : List ℤ) :
    output_part (PhraseModel.forward p (some ctx) (some qry) (some sp) none) =
      output_part (PhraseModel.forward p (some ctx) (some qry) none none) ∧
    output_part (PhraseModel.forward p (some ctx) (some qry) none (some ep)) =
      output_part (PhraseModel.forward p (some ctx) (some qry) none none) ∧
    infer_shaped
      (PhraseModel.forward p (some ctx) (some qry) (some sp) none) = true ∧
    infer_shaped
      (PhraseModel.forward p (some ctx) (some qry) none (some ep)) = true ∧
    final_positions
      (PhraseModel.forward p (some ctx) (some qry) (some sp) none) =
      (some sp, none) ∧
    final_positions
      (PhraseModel.forward p (some ctx) (some qry) none (some ep)) =
      (none, some ep) := by
  obtain ⟨cids, cmask⟩ := ctx
  obtain ⟨qids, qmask⟩ := qry
  rcases hm with hm | hm <;>
    simp [PhraseModel.forward, hm, get_logits2_ip, get_logits2_l2,
      get_logits3_ip, get_logits3_l2, output_part, infer_shaped,
      final_positions]

/-- Witness for C10 on the concrete `pm_test` model. -/
theorem single_position_inference_witness :
    output_part (PhraseModel.forward pm_test (some ([[0]], [[true]]))
        (some ([[0]], [[true]])) (some [5]) none) =
      output_part (PhraseModel.forward pm_test (some ([[0]], [[true]]))
        (some ([[0]], [[true]])) none none) ∧
    output_part (PhraseModel.forward pm_test (some ([[0]], [[true]]))
        (some ([[0]], [[true]])) none (some [7])) =
      output_part (PhraseModel.forward pm_test (some ([[0]], [[true]]))
        (some ([[0]], [[true]])) none none) ∧
    infer_shaped (PhraseModel.forward pm_test (some ([[0]], [[true]]))
      (some ([[0]], [[true]])) (some [5]) none) = true ∧
    infer_shaped (PhraseModel.forward pm_test (some ([[0]], [[true]]))
      (some ([[0]], [[true]])) none (some [7])) = true ∧
    final_positions (PhraseModel.forward pm_test (some ([[0]], [[true]]))
      (some ([[0]], [[true]])) (some [5]) none) = (some [5], none) ∧
    final_positions (PhraseModel.forward pm_test (some ([[0]], [[true]]))
      (some ([[0]], [[true]])) none (some [7])) = (none, some [7]) :=
  single_position_inference pm_test (Or.inl rfl) ([[0]], [[true]])
    ([[0]], [[true]]) [5] [7]

/-- C3 counterexample: on a concrete joint training call, the caller's
`start_positions` tensor holds `[5]` before the call and `[1]` (the value
clamped to `[-1, L_c] = [-1, 1]`) afterwards, so `PhraseModel.forward`
does mutate a caller-supplied tensor. -/
theorem forward_mutates_positions_counterexample :
    final_positions (PhraseModel.forward pm_test (some ([[0]], [[true]]))
      (some ([[0]], [[true]])) (some [5]) (some [0])) =
      (some [1], some [0]) ∧
    (some [1] : Option (List ℤ)) ≠ some [5] := by
  refine ⟨?_, by decide⟩
  decide

theorem cel1d_clamped_ok (d : ℚ) (ce : List (List ℚ) → List ℤ → ℤ → ℚ)
    (M : List (List ℚ)) (pos : List ℤ) (L : ℕ) :
    (CrossEntropyLossWithDefault.init d ce (L : ℤ)).forward M
      (clamped_positions pos L) =
      Except.ok (ce (M.map (fun row => d :: row))
        ((clamped_positions pos L).map (fun t => t + 1))
        (CrossEntropyLossWithDefault.init d ce (L : ℤ)).ignore_index) :=
  cel_forward_eq_of_targets _ _ _ (fun _ ht => (mem_clamped_positions ht).1)

theorem cel2d_spans_ok (d : ℚ) (ce : List (List ℚ) → List ℤ → ℤ → ℚ)
    (M : List (List ℚ)) (sp ep : List ℤ) (L : ℕ) :
    (CrossEntropyLossWithDefault.init d ce ((L : ℤ) ^ 2)).forward M
      (span_targets (clamped_positions sp L) (clamped_positions ep L) L) =
      Except.ok (ce (M.map (fun row => d :: row))
        ((span_targets (clamped_positions sp L) (clamped_positions ep L)
          L).map (fun t => t + 1))
        (CrossEntropyLossWithDefault.init d ce
          ((L : ℤ) ^ 2)).ignore_index) :=
  cel_forward_eq_of_targets _ _ _ (fun _ ht => span_targets_ge_neg_one ht)

/-- C3 amended: a joint training call of `PhraseModel.forward` returns
normally but overwrites the caller's position tensors with their values
clamped in place to `[-1, L_c]` (`L_c` the context sequence length); the
tensors survive unchanged exactly when every entry already lies in
`[-1, L_c]`.  (`BoundaryFilter.forward` applies the same in-place clamp,
which is the second mutation site; by then the values are already
clamped, so the net effect is the single clamp stated here.) -/
theorem forward_clamps_positions (p : PhraseModel)
    (hm : p.metric = "ip" ∨ p.metric = "l2")
    (cids qids : List (List ℤ)) (cmask qmask : List (List Bool))
    (sp ep : List ℤ)
    (hc : p.encoder cids cmask ≠ [])
    (hq : p.encoder qids qmask ≠ []) :
    exceptOk (PhraseModel.forward p (some (cids, cmask)) (some (qids, qmask))
      (some sp) (some ep)) = true ∧
    final_positions (PhraseModel.forward p (some (cids, cmask))
      (some (qids, qmask)) (some sp) (some ep)) =
      (some (clamped_positions sp (dim1 (p.encoder cids cmask))),
       some (clamped_positions ep (dim1 (p.encoder cids cmask)))) ∧
    (clamped_positions sp (dim1 (p.encoder cids cmask)) = sp ↔
      ∀ x ∈ sp, -1 ≤ x ∧ x ≤ ((dim1 (p.encoder cids cmask) : ℤ))) := by
  obtain ⟨c0, crest, hl⟩ : ∃ c0 crest, p.encoder cids cmask = c0 :: crest := by
    cases h : p.encoder cids cmask with
    | nil => exact absurd h hc
    | cons a l => exact ⟨a, l, rfl⟩
  obtain ⟨q0, qrest, hql⟩ : ∃ q0 qrest, p.encoder qids qmask = q0 :: qrest := by
    cases h : p.encoder qids qmask with
    | nil => exact absurd h hq
    | cons a l => exact ⟨a, l, rfl⟩
  refine ⟨?_, ?_, clamped_positions_eq_self_iff sp _⟩ <;>
    rcases hm with hm | hm <;>
      simp [PhraseModel.forward, hl, hql, hm, get_logits2_ip, get_logits2_l2,
        get_logits3_ip, get_logits3_l2, cel1d_clamped_ok, cel2d_spans_ok,
        BoundaryFilter.forward_train, linear_logits, encode_phrase, bpairs,
        bpairs3, dim1, clamped_positions_idem, exceptOk, final_positions]

/-- Witness for the amended C3 on the concrete `pm_test` model
(`L_c = 1`, `start_positions = [5]` clamped to `[1]`). -/
theorem forward_clamps_positions_witness :
    exceptOk (PhraseModel.forward pm_test (some ([[0]], [[true]]))
      (some ([[0]], [[true]])) (some [5]) (some [0])) = true ∧
    final_positions (PhraseModel.forward pm_test (some ([[0]], [[true]]))
      (some ([[0]], [[true]])) (some [5]) (some [0])) =
      (some (clamped_positions [5] 1), some (clamped_positions [0] 1)) ∧
    (clamped_positions [5] 1 = [5] ↔
      ∀ x ∈ ([5] : List ℤ), -1 ≤ x ∧ x ≤ ((1 : ℕ) : ℤ)) :=
  forward_clamps_positions pm_test (Or.inl rfl) [[0]] [[0]] [[true]] [[true]]
    [5] [0] (by decide) (by decide)
